import Mathlib

/-
Verification of the move-selection policy of the cycles bot client
(src/src/client/client_laura.cpp).  The data model and every operation
below are shallow embeddings of that translation unit: the BotClient
member state, is_valid_move, is_self_collision, updateTrail, decideMove,
receiveGameState, the run loop and the exit behaviour of main.  The
Direction and GameState collaborators live in headers that are not part
of the repository snapshot; those few definitions are modelled from the
specification and are marked as such in their doc comments.
-/

namespace Cycles

/-- Grid coordinate, mirroring sf::Vector2i as used by client_laura.cpp. -/
structure Pos where
  x : Int
  y : Int
deriving DecidableEq

instance : Inhabited Pos := ⟨⟨0, 0⟩⟩

/-- Componentwise vector addition, mirroring sf::Vector2i operator+. -/
def Pos.add (a b : Pos) : Pos := ⟨a.x + b.x, a.y + b.y⟩

instance : Add Pos := ⟨Pos.add⟩

/-- Modelled from the spec: the Direction collaborator of the missing api.h,
with the four cardinal variants. -/
inductive Direction where
  | north
  | south
  | east
  | west
deriving DecidableEq

/-- Modelled from the spec: unit displacement vectors with origin top-left,
+x east, +y south (so north is (0,-1)). -/
def getDirectionVector : Direction → Pos
  | .north => ⟨0, -1⟩
  | .south => ⟨0, 1⟩
  | .east => ⟨1, 0⟩
  | .west => ⟨-1, 0⟩

/-- Modelled from the spec: getDirectionFromValue maps an integer in [0,4)
to a Direction; the induced order north, south, east, west is the canonical
fallback scan order. -/
def getDirectionFromValue : Nat → Direction
  | 0 => .north
  | 1 => .south
  | 2 => .east
  | _ => .west

/-- Player record of the game-state collaborator: id, name, position. -/
structure Player where
  id : Int
  name : String
  position : Pos
deriving DecidableEq

instance : Inhabited Player := ⟨⟨0, "", ⟨0, 0⟩⟩⟩

/-- Game-state snapshot.  The grid is queried by coordinate; a cell value 0
means empty and a nonzero value is the id of the player whose trail occupies
the cell.  Cells absent from the association list are empty. -/
structure GameState where
  gridWidth : Int
  gridHeight : Int
  cells : List (Pos × Int)
  players : List Player
deriving DecidableEq

instance : Inhabited GameState := ⟨⟨0, 0, [], []⟩⟩

/-- First value bound to a coordinate in the cell list, 0 when absent. -/
def lookupCell : List (Pos × Int) → Pos → Int
  | [], _ => 0
  | (q, v) :: rest, p => if p = q then v else lookupCell rest p

/-- Grid query by coordinate (getGridCell of the game-state collaborator). -/
def GameState.getGridCell (s : GameState) (p : Pos) : Int :=
  lookupCell s.cells p

/-- Modelled from the spec: the inside-grid predicate, p within the
rectangle [0,W) x [0,H). -/
def GameState.isInsideGrid (s : GameState) (p : Pos) : Bool :=
  if 0 ≤ p.x ∧ p.x < s.gridWidth ∧ 0 ≤ p.y ∧ p.y < s.gridHeight then true
  else false

/-- The member state of class BotClient (client_laura.cpp lines 40-51):
name, last received game state, own player record, the seeded random
generator (abstracted to its seed, it is never read), the patrol heading,
the trail set together with its FIFO queue, and the square-pattern
counters. -/
structure BotState where
  name : String
  state : GameState
  my_player : Player
  rng : Nat
  currentDirection : Direction
  trail : List Pos
  trailQueue : List Pos
  squareSize : Int
  stepsOnCurrentSide : Int
  sidesCompleted : Int
deriving DecidableEq

/-- MAX_TRAIL_LENGTH constant (line 48). -/
def MAX_TRAIL_LENGTH : Nat := 200

/-- True when some player with an id different from the bot's own id stands
at the given cell (the loop at lines 70-75). -/
def otherPlayerAt (st : BotState) (new_pos : Pos) : Bool :=
  st.state.players.any fun player =>
    if player.id ≠ st.my_player.id ∧ player.position = new_pos then true
    else false

/-- BotClient::is_valid_move (lines 54-90), with the five checks in source
order: inside grid, target cell empty, no other player at the target, the
self-collision re-check against the own id, and the two-cell edge buffer. -/
def is_valid_move (st : BotState) (direction : Direction) : Bool :=
  let new_pos := st.my_player.position + getDirectionVector direction
  if st.state.isInsideGrid new_pos = false then false
  else if st.state.getGridCell new_pos ≠ 0 then false
  else if otherPlayerAt st new_pos then false
  else if st.state.getGridCell new_pos = st.my_player.id then false
  else if new_pos.x < 2 ∨ new_pos.x ≥ st.state.gridWidth - 2 ∨
      new_pos.y < 2 ∨ new_pos.y ≥ st.state.gridHeight - 2 then false
  else true

/-- BotClient::is_self_collision (lines 93-95): membership in the trail set. -/
def is_self_collision (st : BotState) (pos : Pos) : Bool :=
  if pos ∈ st.trail then true else false

/-- std::set insert: a no-op when the element is present. -/
def insertPos (l : List Pos) (p : Pos) : List Pos :=
  if p ∈ l then l else l ++ [p]

/-- std::set erase by key: removes the (first) occurrence of the key. -/
def erasePos : List Pos → Pos → List Pos
  | [], _ => []
  | q :: rest, p => if q = p then rest else q :: erasePos rest p

/-- BotClient::updateTrail (lines 98-108): insert into the set, push onto
the queue, and when the queue exceeds MAX_TRAIL_LENGTH evict the front of
the queue from both structures. -/
def updateTrail (st : BotState) (newPos : Pos) : BotState :=
  if MAX_TRAIL_LENGTH < (st.trailQueue ++ [newPos]).length then
    { st with
      trail := erasePos (insertPos st.trail newPos) (st.trailQueue ++ [newPos]).headI
      trailQueue := (st.trailQueue ++ [newPos]).tail }
  else
    { st with
      trail := insertPos st.trail newPos
      trailQueue := st.trailQueue ++ [newPos] }

/-- Clockwise rotation of the heading (the switch at lines 130-135). -/
def rotateClockwise : Direction → Direction
  | .north => .east
  | .east => .south
  | .south => .west
  | .west => .north

/-- The square-pattern transition of decideMove (lines 129-142): when the
current side is complete, rotate clockwise, reset the step counter and
count the side; every fourth side grows the square. -/
def patrolStep (st : BotState) : BotState :=
  if st.squareSize ≤ st.stepsOnCurrentSide then
    if st.sidesCompleted + 1 = 4 then
      { st with
        currentDirection := rotateClockwise st.currentDirection
        stepsOnCurrentSide := 0
        sidesCompleted := 0
        squareSize := st.squareSize + 1 }
    else
      { st with
        currentDirection := rotateClockwise st.currentDirection
        stepsOnCurrentSide := 0
        sidesCompleted := st.sidesCompleted + 1 }
  else st

/-- The combined acceptance test that decideMove applies to a direction:
is_valid_move(direction) && !is_self_collision(position + vector). -/
def dirOk (st : BotState) (d : Direction) : Bool :=
  is_valid_move st d &&
    !is_self_collision st (st.my_player.position + getDirectionVector d)

/-- The fallback loop of decideMove (lines 152-160), scanning the given
index list through getDirectionFromValue. -/
def fallbackScan (st : BotState) : List Nat → Option (Direction × BotState)
  | [] => none
  | i :: rest =>
    let direction := getDirectionFromValue i
    let fallbackPos := st.my_player.position + getDirectionVector direction
    if dirOk st direction then some (direction, updateTrail st fallbackPos)
    else fallbackScan st rest

/-- The move attempt of decideMove after the automaton transition (lines
144-163): take the patrol heading when it is accepted, advancing the step
counter and the trail; otherwise scan the fallback directions; none models
the exit(1) at line 163. -/
def moveAttempt (st : BotState) : Option (Direction × BotState) :=
  let nextPos := st.my_player.position + getDirectionVector st.currentDirection
  if dirOk st st.currentDirection then
    some (st.currentDirection,
      updateTrail { st with stepsOnCurrentSide := st.stepsOnCurrentSide + 1 } nextPos)
  else fallbackScan st [0, 1, 2, 3]

/-- nearLeft (line 114): x within dangerZone = 2 of the left border. -/
def nearLeftP (st : BotState) : Prop := st.my_player.position.x < 2

/-- nearRight (line 115). -/
def nearRightP (st : BotState) : Prop :=
  st.state.gridWidth - 2 ≤ st.my_player.position.x

/-- nearTop (line 116). -/
def nearTopP (st : BotState) : Prop := st.my_player.position.y < 2

/-- nearBottom (line 117). -/
def nearBottomP (st : BotState) : Prop :=
  st.state.gridHeight - 2 ≤ st.my_player.position.y

instance (st : BotState) : Decidable (nearLeftP st) := by
  unfold nearLeftP; infer_instance

instance (st : BotState) : Decidable (nearRightP st) := by
  unfold nearRightP; infer_instance

instance (st : BotState) : Decidable (nearTopP st) := by
  unfold nearTopP; infer_instance

instance (st : BotState) : Decidable (nearBottomP st) := by
  unfold nearBottomP; infer_instance

/-- BotClient::decideMove (lines 111-164).  The edge-escape block comes
first; when it does not return, the square-pattern transition is applied
and the move attempt runs.  A none result models the exit(1). -/
def decideMove (st : BotState) : Option (Direction × BotState) :=
  if nearLeftP st ∨ nearRightP st ∨ nearTopP st ∨ nearBottomP st then
    if nearRightP st ∧ is_valid_move st .west = true then some (.west, st)
    else if nearLeftP st ∧ is_valid_move st .east = true then some (.east, st)
    else if nearTopP st ∧ is_valid_move st .south = true then some (.south, st)
    else if nearBottomP st ∧ is_valid_move st .north = true then some (.north, st)
    else moveAttempt (patrolStep st)
  else moveAttempt (patrolStep st)

/-- BotClient::receiveGameState (lines 167-175): store the snapshot and
bind my_player to the first player whose name matches; when no name
matches, my_player keeps its previous value. -/
def receiveGameState (snap : GameState) (st : BotState) : BotState :=
  match snap.players.find? (fun player => if player.name = st.name then true else false) with
  | some player => { st with state := snap, my_player := player }
  | none => { st with state := snap }

/-- BotClient::run (lines 204-209): the receive-decide-send loop.  The
connection is modelled by the finite list of snapshots it will deliver
before reporting inactive.  The result collects the emitted moves, the
final member state, and whether decideMove hit its exit(1). -/
def runBot : List GameState → BotState → List Direction × BotState × Bool
  | [], st => ([], st, false)
  | snap :: rest, st =>
    match decideMove (receiveGameState snap st) with
    | none => ([], receiveGameState snap st, true)
    | some (d, st2) =>
      ((d :: (runBot rest st2).1), (runBot rest st2).2)

/-- Initial member state of BotClient (lines 40-51): heading north, empty
trail, squareSize 1, stepsOnCurrentSide 0, sidesCompleted 0; my_player and
state are default-initialized; the rng holds its construction seed. -/
def initBot (botName : String) (seed : Nat) : BotState :=
  { name := botName
    state := default
    my_player := default
    rng := seed
    currentDirection := .north
    trail := []
    trailQueue := []
    squareSize := 1
    stepsOnCurrentSide := 0
    sidesCompleted := 0 }

/-- main (lines 212-226) combined with the BotClient constructor (lines
186-200): exit 1 when argc is not 2; exit 1 when the connection cannot be
established; then run the loop, exiting 1 when decideMove finds no valid
move and 0 when the connection simply goes inactive. -/
def programExit (args : List String) (connectOk : Bool) (seed : Nat)
    (snaps : List GameState) : Nat :=
  if args.length ≠ 2 then 1
  else if connectOk = false then 1
  else if (runBot snaps (initBot (args.drop 1).headI seed)).2.2 = true then 1
  else 0

/-- The spec-side reading of the edge-escape probe: the ordered candidate
list west (if nearRight), east (if nearLeft), south (if nearTop), north
(if nearBottom). -/
def edgeCandidates (st : BotState) : List Direction :=
  (if nearRightP st then [Direction.west] else []) ++
    (if nearLeftP st then [Direction.east] else []) ++
    (if nearTopP st then [Direction.south] else []) ++
    (if nearBottomP st then [Direction.north] else [])

/-- First probed edge-escape direction that passes the validator. -/
def edgeChoice (st : BotState) : Option Direction :=
  (edgeCandidates st).find? fun d => is_valid_move st d

/-- Whether the agent is within the two-cell danger zone of some border. -/
def nearBorderB (st : BotState) : Bool :=
  decide (nearLeftP st ∨ nearRightP st ∨ nearTopP st ∨ nearBottomP st)

/-- First direction in getDirectionFromValue order 0,1,2,3 that is valid
and whose target cell is not in trail memory. -/
def fallbackChoice (st : BotState) : Option Direction :=
  (([0, 1, 2, 3].map getDirectionFromValue)).find? fun d => dirOk st d

/-- The four validator conditions exactly as the spec states them: target
inside the grid, target cell empty, no other player at the target, and the
two-cell edge buffer. -/
def validSpec (st : BotState) (direction : Direction) : Prop :=
  st.state.isInsideGrid (st.my_player.position + getDirectionVector direction) = true ∧
  st.state.getGridCell (st.my_player.position + getDirectionVector direction) = 0 ∧
  (∀ q ∈ st.state.players, q.id ≠ st.my_player.id →
    q.position ≠ st.my_player.position + getDirectionVector direction) ∧
  (2 ≤ (st.my_player.position + getDirectionVector direction).x ∧
    (st.my_player.position + getDirectionVector direction).x < st.state.gridWidth - 2 ∧
    2 ≤ (st.my_player.position + getDirectionVector direction).y ∧
    (st.my_player.position + getDirectionVector direction).y < st.state.gridHeight - 2)

instance (st : BotState) (d : Direction) : Decidable (validSpec st d) := by
  unfold validSpec; infer_instance

/-- Folding a sequence of remembered positions through updateTrail. -/
def trailFold (st : BotState) (ps : List Pos) : BotState :=
  ps.foldl updateTrail st

/-- The trail-memory invariant relative to the list of all positions
remembered so far: the queue holds the last MAX_TRAIL_LENGTH of them in
insertion order, the set and the queue have the same members, and the set
has no duplicates. -/
def TrailInv (l : List Pos) (st : BotState) : Prop :=
  st.trailQueue = l.drop (l.length - MAX_TRAIL_LENGTH) ∧
  (∀ x : Pos, x ∈ st.trail ↔ x ∈ st.trailQueue) ∧
  st.trail.Nodup

/-- The policy-state invariant of the patrol automaton. -/
def PolicyInv (st : BotState) : Prop :=
  0 ≤ st.sidesCompleted ∧ st.sidesCompleted ≤ 3 ∧ 1 ≤ st.squareSize

/-- Replace only the rng member. -/
def setRng (st : BotState) (r : Nat) : BotState := { st with rng := r }

/-- A 20 x 20 snapshot with a single player, id 1, at the centre. -/
def demoSnap : GameState := ⟨20, 20, [], [⟨1, "laura", ⟨10, 10⟩⟩]⟩

/-- A freshly spawned centred bot over demoSnap. -/
def demoBot : BotState :=
  { name := "laura"
    state := demoSnap
    my_player := ⟨1, "laura", ⟨10, 10⟩⟩
    rng := 0
    currentDirection := .north
    trail := []
    trailQueue := []
    squareSize := 1
    stepsOnCurrentSide := 0
    sidesCompleted := 0 }

/-- The centred bot with own id 0, exhibiting the degenerate behaviour of
the self-collision re-check of is_valid_move. -/
def demoBotIdZero : BotState :=
  { demoBot with my_player := ⟨0, "laura", ⟨10, 10⟩⟩ }

/-- The centred bot whose trail already holds the cell north of it, so the
patrol heading is rejected by trail memory and the fallback runs. -/
def demoBotBlocked : BotState :=
  { demoBot with trail := [⟨10, 9⟩], trailQueue := [⟨10, 9⟩] }

/-- The state demoBotBlocked reaches after its fallback step south. -/
def demoBotBlockedAfter : BotState :=
  { demoBot with
    trail := [⟨10, 9⟩, ⟨10, 11⟩]
    trailQueue := [⟨10, 9⟩, ⟨10, 11⟩] }

/-- A bot in the left danger zone whose trail holds the eastward target. -/
def demoBotEdge : BotState :=
  { demoBot with
    my_player := ⟨1, "laura", ⟨1, 10⟩⟩
    trail := [⟨2, 10⟩]
    trailQueue := [⟨2, 10⟩] }

/-- A bot with a completed side, ready to rotate. -/
def demoBotRotate : BotState := { demoBot with stepsOnCurrentSide := 1 }

/-- A snapshot that contains no player named laura. -/
def demoSnapMissing : GameState := ⟨20, 20, [], [⟨2, "other", ⟨5, 5⟩⟩]⟩

end Cycles

namespace Cycles

theorem nearBorderB_false (st : BotState) (h : nearBorderB st = false) :
    ¬(nearLeftP st ∨ nearRightP st ∨ nearTopP st ∨ nearBottomP st) := by
  unfold nearBorderB at h
  exact of_decide_eq_false h

theorem decideMove_of_not_border (st : BotState) (h : nearBorderB st = false) :
    decideMove st = moveAttempt (patrolStep st) := by
  unfold decideMove
  rw [if_neg (nearBorderB_false st h)]

theorem edgeChoice_eq (st : BotState) :
    edgeChoice st =
      (if nearRightP st ∧ is_valid_move st .west = true then some Direction.west
       else if nearLeftP st ∧ is_valid_move st .east = true then some Direction.east
       else if nearTopP st ∧ is_valid_move st .south = true then some Direction.south
       else if nearBottomP st ∧ is_valid_move st .north = true then some Direction.north
       else none) := by
  unfold edgeChoice edgeCandidates
  by_cases h1 : nearRightP st <;> by_cases h2 : nearLeftP st <;>
    by_cases h3 : nearTopP st <;> by_cases h4 : nearBottomP st <;>
    by_cases v1 : is_valid_move st .west = true <;>
    by_cases v2 : is_valid_move st .east = true <;>
    by_cases v3 : is_valid_move st .south = true <;>
    by_cases v4 : is_valid_move st .north = true <;>
    simp [h1, h2, h3, h4, v1, v2, v3, v4, List.find?]

theorem decideMove_of_border (st : BotState) (hb : nearBorderB st = true) :
    decideMove st =
      (match edgeChoice st with
        | some d => some (d, st)
        | none => moveAttempt (patrolStep st)) := by
  have hb2 : nearLeftP st ∨ nearRightP st ∨ nearTopP st ∨ nearBottomP st :=
    of_decide_eq_true hb
  rw [edgeChoice_eq]
  unfold decideMove
  rw [if_pos hb2]
  by_cases c1 : nearRightP st ∧ is_valid_move st .west = true <;>
    by_cases c2 : nearLeftP st ∧ is_valid_move st .east = true <;>
    by_cases c3 : nearTopP st ∧ is_valid_move st .south = true <;>
    by_cases c4 : nearBottomP st ∧ is_valid_move st .north = true <;>
    simp [c1, c2, c3, c4]

theorem fallbackScan_map_fst (st : BotState) (l : List Nat) :
    Option.map Prod.fst (fallbackScan st l) =
      (l.map getDirectionFromValue).find? (fun d => dirOk st d) := by
  induction l with
  | nil => rfl
  | cons i rest ih =>
    by_cases h : dirOk st (getDirectionFromValue i) = true
    · simp [fallbackScan, List.find?, h]
    · have h2 : dirOk st (getDirectionFromValue i) = false := by
        simpa using h
      simp [fallbackScan, List.find?, h2, ih]

theorem fallbackScan_shape (st : BotState) (l : List Nat) (d : Direction)
    (st2 : BotState) (h : fallbackScan st l = some (d, st2)) :
    ∃ p : Pos, st2 = updateTrail st p := by
  induction l with
  | nil => simp [fallbackScan] at h
  | cons i rest ih =>
    simp only [fallbackScan] at h
    split at h
    · simp only [Option.some.injEq, Prod.mk.injEq] at h
      exact ⟨st.my_player.position + getDirectionVector (getDirectionFromValue i), h.2.symm⟩
    · exact ih h

theorem updateTrail_frame (st : BotState) (p : Pos) :
    (updateTrail st p).currentDirection = st.currentDirection ∧
    (updateTrail st p).stepsOnCurrentSide = st.stepsOnCurrentSide ∧
    (updateTrail st p).sidesCompleted = st.sidesCompleted ∧
    (updateTrail st p).squareSize = st.squareSize ∧
    (updateTrail st p).rng = st.rng ∧
    (updateTrail st p).name = st.name ∧
    (updateTrail st p).state = st.state ∧
    (updateTrail st p).my_player = st.my_player := by
  unfold updateTrail
  split <;> simp

theorem patrolStep_size_mono (st : BotState) :
    st.squareSize ≤ (patrolStep st).squareSize := by
  unfold patrolStep
  split
  · split <;> simp
  · exact le_refl _

theorem patrolStep_inv (st : BotState) (h : PolicyInv st) :
    PolicyInv (patrolStep st) := by
  unfold PolicyInv at h
  unfold PolicyInv patrolStep
  split
  · split <;> simp <;> omega
  · exact h

end Cycles

namespace Cycles

theorem moveAttempt_policy (st : BotState) (d : Direction) (st2 : BotState)
    (h : moveAttempt st = some (d, st2)) :
    st2.squareSize = st.squareSize ∧ st2.sidesCompleted = st.sidesCompleted := by
  simp only [moveAttempt] at h
  split at h
  · simp only [Option.some.injEq, Prod.mk.injEq] at h
    rw [← h.2]
    refine ⟨((updateTrail_frame _ _).2.2.2.1).trans ?_, ((updateTrail_frame _ _).2.2.1).trans ?_⟩ <;> rfl
  · obtain ⟨p, rfl⟩ := fallbackScan_shape _ _ _ _ h
    exact ⟨(updateTrail_frame _ _).2.2.2.1, (updateTrail_frame _ _).2.2.1⟩

theorem decideMove_policy (st : BotState) (d : Direction) (st2 : BotState)
    (h : decideMove st = some (d, st2)) :
    (PolicyInv st → PolicyInv st2) ∧ st.squareSize ≤ st2.squareSize := by
  have hcase : st2 = st ∨ moveAttempt (patrolStep st) = some (d, st2) := by
    unfold decideMove at h
    split at h
    · split at h
      · exact Or.inl (by injection h with h1; exact (Prod.mk.injEq _ _ _ _ ▸ h1).2.symm)
      · split at h
        · exact Or.inl (by injection h with h1; exact (Prod.mk.injEq _ _ _ _ ▸ h1).2.symm)
        · split at h
          · exact Or.inl (by injection h with h1; exact (Prod.mk.injEq _ _ _ _ ▸ h1).2.symm)
          · split at h
            · exact Or.inl (by injection h with h1; exact (Prod.mk.injEq _ _ _ _ ▸ h1).2.symm)
            · exact Or.inr h
    · exact Or.inr h
  rcases hcase with rfl | hma
  · exact ⟨id, le_refl _⟩
  · obtain ⟨hsq, hsc⟩ := moveAttempt_policy _ _ _ hma
    constructor
    · intro hInv
      have h2 := patrolStep_inv st hInv
      unfold PolicyInv at h2
      unfold PolicyInv
      omega
    · calc st.squareSize ≤ (patrolStep st).squareSize := patrolStep_size_mono st
        _ = st2.squareSize := hsq.symm

theorem receiveGameState_frame (snap : GameState) (st : BotState) :
    (receiveGameState snap st).currentDirection = st.currentDirection ∧
    (receiveGameState snap st).stepsOnCurrentSide = st.stepsOnCurrentSide ∧
    (receiveGameState snap st).sidesCompleted = st.sidesCompleted ∧
    (receiveGameState snap st).squareSize = st.squareSize ∧
    (receiveGameState snap st).rng = st.rng ∧
    (receiveGameState snap st).name = st.name ∧
    (receiveGameState snap st).trail = st.trail ∧
    (receiveGameState snap st).trailQueue = st.trailQueue ∧
    (receiveGameState snap st).state = snap := by
  unfold receiveGameState
  split <;> simp

theorem runBot_policy (snaps : List GameState) (st : BotState) :
    (PolicyInv st → PolicyInv (runBot snaps st).2.1) ∧
    st.squareSize ≤ (runBot snaps st).2.1.squareSize := by
  induction snaps generalizing st with
  | nil => exact ⟨id, le_refl _⟩
  | cons snap rest ih =>
    have hrsc : (receiveGameState snap st).sidesCompleted = st.sidesCompleted :=
      (receiveGameState_frame snap st).2.2.1
    have hrsq : (receiveGameState snap st).squareSize = st.squareSize :=
      (receiveGameState_frame snap st).2.2.2.1
    unfold runBot
    cases hd : decideMove (receiveGameState snap st) with
    | none =>
      dsimp only
      constructor
      · intro hInv
        unfold PolicyInv at hInv
        unfold PolicyInv
        omega
      · simp [hrsq]
    | some pair =>
      obtain ⟨d, st2⟩ := pair
      obtain ⟨hInv2, hsq2⟩ := decideMove_policy _ _ _ hd
      dsimp only
      constructor
      · intro hInv
        refine (ih st2).1 (hInv2 ?_)
        unfold PolicyInv at hInv
        unfold PolicyInv
        omega
      · calc st.squareSize = (receiveGameState snap st).squareSize := hrsq.symm
          _ ≤ st2.squareSize := hsq2
          _ ≤ (runBot rest st2).2.1.squareSize := (ih st2).2


theorem is_valid_move_setRng (st : BotState) (r : Nat) (d : Direction) :
    is_valid_move (setRng st r) d = is_valid_move st d := rfl

theorem dirOk_setRng (st : BotState) (r : Nat) (d : Direction) :
    dirOk (setRng st r) d = dirOk st d := rfl

theorem nearLeftP_setRng (st : BotState) (r : Nat) :
    nearLeftP (setRng st r) ↔ nearLeftP st := Iff.rfl

theorem nearRightP_setRng (st : BotState) (r : Nat) :
    nearRightP (setRng st r) ↔ nearRightP st := Iff.rfl

theorem nearTopP_setRng (st : BotState) (r : Nat) :
    nearTopP (setRng st r) ↔ nearTopP st := Iff.rfl

theorem nearBottomP_setRng (st : BotState) (r : Nat) :
    nearBottomP (setRng st r) ↔ nearBottomP st := Iff.rfl

theorem patrolStep_setRng (st : BotState) (r : Nat) :
    patrolStep (setRng st r) = setRng (patrolStep st) r := by
  unfold patrolStep setRng
  dsimp only
  split <;> [split <;> rfl; rfl]

theorem updateTrail_setRng (st : BotState) (r : Nat) (p : Pos) :
    updateTrail (setRng st r) p = setRng (updateTrail st p) r := by
  unfold updateTrail setRng
  dsimp only
  split <;> rfl

theorem fallbackScan_setRng (st : BotState) (r : Nat) (l : List Nat) :
    fallbackScan (setRng st r) l =
      Option.map (fun q => (q.1, setRng q.2 r)) (fallbackScan st l) := by
  induction l with
  | nil => rfl
  | cons i rest ih =>
    simp only [fallbackScan, dirOk_setRng]
    split
    · rw [updateTrail_setRng]
      rfl
    · exact ih

theorem moveAttempt_setRng (st : BotState) (r : Nat) :
    moveAttempt (setRng st r) =
      Option.map (fun q => (q.1, setRng q.2 r)) (moveAttempt st) := by
  simp only [moveAttempt]
  by_cases h : dirOk st st.currentDirection = true
  · have hL : dirOk (setRng st r) (setRng st r).currentDirection = true := h
    rw [if_pos hL, if_pos h]
    refine congrArg some (Prod.ext rfl ?_)
    exact updateTrail_setRng { st with stepsOnCurrentSide := st.stepsOnCurrentSide + 1 } r
      (st.my_player.position + getDirectionVector st.currentDirection)
  · have hL : ¬ dirOk (setRng st r) (setRng st r).currentDirection = true := h
    rw [if_neg hL, if_neg h]
    exact fallbackScan_setRng st r [0, 1, 2, 3]

theorem decideMove_setRng (st : BotState) (r : Nat) :
    decideMove (setRng st r) =
      Option.map (fun q => (q.1, setRng q.2 r)) (decideMove st) := by
  simp only [decideMove, nearLeftP_setRng, nearRightP_setRng, nearTopP_setRng,
    nearBottomP_setRng, is_valid_move_setRng, patrolStep_setRng,
    moveAttempt_setRng]
  split
  · split
    · rfl
    · split
      · rfl
      · split
        · rfl
        · split
          · rfl
          · rfl
  · rfl

theorem receiveGameState_setRng (snap : GameState) (st : BotState) (r : Nat) :
    receiveGameState snap (setRng st r) = setRng (receiveGameState snap st) r := by
  have hn : (setRng st r).name = st.name := rfl
  unfold receiveGameState
  rw [hn]
  cases hf : snap.players.find? (fun player => if player.name = st.name then true else false) with
  | none => rfl
  | some player => rfl

theorem runBot_setRng (snaps : List GameState) (st : BotState) (r : Nat) :
    runBot snaps (setRng st r) =
      ((runBot snaps st).1, setRng (runBot snaps st).2.1 r, (runBot snaps st).2.2) := by
  induction snaps generalizing st with
  | nil => rfl
  | cons snap rest ih =>
    cases hd : decideMove (receiveGameState snap st) with
    | none =>
      simp only [runBot, receiveGameState_setRng, decideMove_setRng, hd, Option.map]
    | some pair =>
      obtain ⟨d, st2⟩ := pair
      simp only [runBot, receiveGameState_setRng, decideMove_setRng, hd, Option.map]
      rw [ih st2]


theorem mem_insertPos (l : List Pos) (p x : Pos) :
    x ∈ insertPos l p ↔ x ∈ l ∨ x = p := by
  unfold insertPos
  split
  · rename_i h
    constructor
    · exact fun hx => Or.inl hx
    · rintro (hx | rfl)
      · exact hx
      · exact h
  · simp

theorem nodup_insertPos (l : List Pos) (p : Pos) (h : l.Nodup) :
    (insertPos l p).Nodup := by
  unfold insertPos
  split
  · exact h
  · rename_i hp
    simp [List.nodup_append, h, hp]

theorem mem_erasePos (l : List Pos) (a x : Pos) (h : l.Nodup) :
    x ∈ erasePos l a ↔ x ∈ l ∧ x ≠ a := by
  induction l with
  | nil => simp [erasePos]
  | cons q rest ih =>
    rw [List.nodup_cons] at h
    unfold erasePos
    split
    · rename_i hq
      subst hq
      constructor
      · intro hx
        exact ⟨List.mem_cons_of_mem _ hx, fun hxa => h.1 (hxa ▸ hx)⟩
      · rintro ⟨hx, hne⟩
        rcases List.mem_cons.mp hx with rfl | hx2
        · exact absurd rfl hne
        · exact hx2
    · rename_i hq
      rw [List.mem_cons, List.mem_cons, ih h.2]
      constructor
      · rintro (rfl | ⟨hx, hne⟩)
        · exact ⟨Or.inl rfl, fun hxa => hq hxa⟩
        · exact ⟨Or.inr hx, hne⟩
      · rintro ⟨rfl | hx, hne⟩
        · exact Or.inl rfl
        · exact Or.inr ⟨hx, hne⟩

theorem nodup_erasePos (l : List Pos) (a : Pos) (h : l.Nodup) :
    (erasePos l a).Nodup := by
  induction l with
  | nil => simp [erasePos]
  | cons q rest ih =>
    rw [List.nodup_cons] at h
    unfold erasePos
    split
    · exact h.2
    · rw [List.nodup_cons]
      refine ⟨fun hmem => ?_, ih h.2⟩
      exact h.1 ((mem_erasePos rest a q h.2).mp hmem).1

theorem trailInv_step (l : List Pos) (p : Pos) (st : BotState)
    (hnd : (l ++ [p]).Nodup) (hInv : TrailInv l st) :
    TrailInv (l ++ [p]) (updateTrail st p) := by
  obtain ⟨hq, hmem, hset⟩ := hInv
  have hM : MAX_TRAIL_LENGTH = 200 := rfl
  rw [List.nodup_append] at hnd
  have hlnd : l.Nodup := hnd.1
  have hpl : p ∉ l := by
    intro hp
    exact hnd.2.2 hp (List.mem_singleton_self p)
  have hqsub : st.trailQueue.Sublist l := hq ▸ List.drop_sublist _ _
  have hqnd : st.trailQueue.Nodup := List.Nodup.sublist hqsub hlnd
  have hpq : p ∉ st.trailQueue := fun hp => hpl (hqsub.subset hp)
  have hqlen : st.trailQueue.length = l.length - (l.length - MAX_TRAIL_LENGTH) := by
    rw [hq, List.length_drop]
  unfold updateTrail
  by_cases hcap : MAX_TRAIL_LENGTH < (st.trailQueue ++ [p]).length
  · rw [if_pos hcap]
    rw [List.length_append, List.length_singleton, hqlen] at hcap
    have hlong : MAX_TRAIL_LENGTH ≤ l.length := by omega
    have hqlen2 : st.trailQueue.length = MAX_TRAIL_LENGTH := by omega
    obtain ⟨h0, t, hqe⟩ : ∃ h0 t, st.trailQueue = h0 :: t := by
      cases hqc : st.trailQueue with
      | nil => rw [hqc] at hqlen2; simp [MAX_TRAIL_LENGTH] at hqlen2
      | cons h0 t => exact ⟨h0, t, rfl⟩
    have htail : (st.trailQueue ++ [p]).tail = t ++ [p] := by rw [hqe]; rfl
    have hhead : (st.trailQueue ++ [p]).headI = h0 := by rw [hqe]; rfl
    have hdropt : l.drop (l.length + 1 - MAX_TRAIL_LENGTH) = t := by
      have h1 : l.length + 1 - MAX_TRAIL_LENGTH = (l.length - MAX_TRAIL_LENGTH) + 1 := by
        omega
      rw [h1, ← List.drop_drop, ← hq, hqe, List.drop_one]
      rfl
    have hqgoal : (l ++ [p]).drop ((l ++ [p]).length - MAX_TRAIL_LENGTH) = t ++ [p] := by
      rw [List.length_append, List.length_singleton]
      rw [List.drop_append_of_le_length (by omega), hdropt]
    have hh0t : h0 ∉ t := (List.nodup_cons.mp (hqe ▸ hqnd)).1
    have hph0 : p ≠ h0 := by
      intro hp
      exact hpq (hp ▸ hqe ▸ List.mem_cons_self h0 t)
    refine ⟨?_, ?_, ?_⟩
    · simpa [htail] using hqgoal.symm
    · intro x
      show x ∈ erasePos (insertPos st.trail p) (st.trailQueue ++ [p]).headI ↔ _
      rw [hhead, htail, mem_erasePos _ _ _ (nodup_insertPos _ _ hset), mem_insertPos,
        hmem, hqe]
      simp only [List.mem_cons, List.mem_append, List.mem_singleton,
        List.not_mem_nil, or_false]
      constructor
      · rintro ⟨(rfl | hx) | rfl, hne⟩
        · exact absurd rfl hne
        · exact Or.inl hx
        · exact Or.inr rfl
      · rintro (hx | rfl)
        · exact ⟨Or.inl (Or.inr hx), fun he => hh0t (he ▸ hx)⟩
        · exact ⟨Or.inr rfl, hph0⟩
    · exact nodup_erasePos _ _ (nodup_insertPos _ _ hset)
  · rw [if_neg hcap]
    rw [List.length_append, List.length_singleton, hqlen] at hcap
    have hshort : l.length < MAX_TRAIL_LENGTH := by omega
    have hz : l.length - MAX_TRAIL_LENGTH = 0 := by omega
    have hz2 : (l ++ [p]).length - MAX_TRAIL_LENGTH = 0 := by
      rw [List.length_append, List.length_singleton]; omega
    have hql : st.trailQueue = l := by rw [hq, hz, List.drop_zero]
    refine ⟨?_, ?_, ?_⟩
    · show st.trailQueue ++ [p] = _
      rw [hz2, List.drop_zero, hql]
    · intro x
      show x ∈ insertPos st.trail p ↔ x ∈ st.trailQueue ++ [p]
      rw [mem_insertPos, hmem]
      simp
    · exact nodup_insertPos _ _ hset

theorem trailFold_append (st : BotState) (l : List Pos) (p : Pos) :
    trailFold st (l ++ [p]) = updateTrail (trailFold st l) p := by
  unfold trailFold
  rw [List.foldl_append]
  rfl

theorem trailFold_inv (botName : String) (seed : Nat) (ps : List Pos)
    (hnd : ps.Nodup) :
    TrailInv ps (trailFold (initBot botName seed) ps) := by
  induction ps using List.reverseRecOn with
  | nil =>
    refine ⟨rfl, ?_, List.nodup_nil⟩
    intro x
    exact Iff.rfl
  | append_singleton l p ih =>
    have hl : l.Nodup := (List.nodup_append.mp hnd).1
    rw [trailFold_append]
    exact trailInv_step l p _ hnd (ih hl)


theorem decideMove_eq_moveAttempt (st : BotState)
    (hnb : nearBorderB st = false ∨ edgeChoice st = none) :
    decideMove st = moveAttempt (patrolStep st) := by
  rcases hnb with h | h
  · exact decideMove_of_not_border st h
  · by_cases hb : nearBorderB st = true
    · rw [decideMove_of_border st hb, h]
    · exact decideMove_of_not_border st (by simpa using hb)

theorem moveAttempt_cases (st : BotState) :
    (dirOk st st.currentDirection = true →
        Option.map Prod.fst (moveAttempt st) = some st.currentDirection) ∧
    (dirOk st st.currentDirection = false →
        Option.map Prod.fst (moveAttempt st) = fallbackChoice st) ∧
    (dirOk st st.currentDirection = false → fallbackChoice st = none →
        moveAttempt st = none) := by
  refine ⟨?_, ?_, ?_⟩
  · intro h
    simp only [moveAttempt]
    rw [if_pos h]
    rfl
  · intro h
    simp only [moveAttempt]
    rw [if_neg (by simp [h]), fallbackScan_map_fst]
    rfl
  · intro h hnone
    simp only [moveAttempt]
    rw [if_neg (by simp [h])]
    have h3 : Option.map Prod.fst (fallbackScan st [0, 1, 2, 3]) = none := by
      rw [fallbackScan_map_fst]
      exact hnone
    exact Option.map_eq_none'.mp h3

/-- C1: one invocation of decideMove follows the strict priority ladder:
near a border with a probed edge-escape direction passing the validator,
the first such direction is returned (with the state untouched); otherwise
the post-transition patrol heading is returned when it is valid and
trail-clean; otherwise the first direction in getDirectionFromValue order
0,1,2,3 that is valid and trail-clean is returned; otherwise the process
terminates (none). -/
theorem decideMove_priority_ladder (st : BotState) :
    (nearBorderB st = true → (edgeChoice st).isSome = true →
        decideMove st = Option.map (fun d => (d, st)) (edgeChoice st)) ∧
    ((nearBorderB st = false ∨ edgeChoice st = none) →
        (dirOk (patrolStep st) (patrolStep st).currentDirection = true →
            Option.map Prod.fst (decideMove st) =
              some (patrolStep st).currentDirection) ∧
        (dirOk (patrolStep st) (patrolStep st).currentDirection = false →
            Option.map Prod.fst (decideMove st) = fallbackChoice (patrolStep st)) ∧
        (dirOk (patrolStep st) (patrolStep st).currentDirection = false →
            fallbackChoice (patrolStep st) = none → decideMove st = none)) := by
  constructor
  · intro hb hsome
    rw [decideMove_of_border st hb]
    cases he : edgeChoice st with
    | none => rw [he] at hsome; simp at hsome
    | some d => rfl
  · intro hnb
    rw [decideMove_eq_moveAttempt st hnb]
    exact moveAttempt_cases (patrolStep st)

theorem decideMove_priority_ladder_witness :
    nearBorderB demoBot = false ∧
    dirOk (patrolStep demoBot) (patrolStep demoBot).currentDirection = true ∧
    Option.map Prod.fst (decideMove demoBot) =
      some (patrolStep demoBot).currentDirection :=
  ⟨by decide, by decide,
    ((decideMove_priority_ladder demoBot).2 (Or.inl (by decide))).1 (by decide)⟩

theorem isInsideGrid_iff (s : GameState) (p : Pos) :
    s.isInsideGrid p = true ↔
      (0 ≤ p.x ∧ p.x < s.gridWidth ∧ 0 ≤ p.y ∧ p.y < s.gridHeight) := by
  unfold GameState.isInsideGrid
  split
  · rename_i hC
    simpa using hC
  · rename_i hC
    simpa using hC

theorem otherPlayerAt_false_iff (st : BotState) (p : Pos) :
    otherPlayerAt st p = false ↔
      ∀ q ∈ st.state.players, q.id ≠ st.my_player.id → q.position ≠ p := by
  unfold otherPlayerAt
  rw [List.any_eq_false]
  constructor
  · intro h q hq hid hpos
    have h2 := h q hq
    rw [if_pos ⟨hid, hpos⟩] at h2
    exact h2 rfl
  · intro h q hq
    by_cases hc : q.id ≠ st.my_player.id ∧ q.position = p
    · exact absurd hc.2 (h q hq hc.1)
    · rw [if_neg hc]
      simp

/-- C2 (amended): provided the agent's own id is nonzero, is_valid_move
returns true exactly when the four spec conditions hold for the target
cell: inside the grid, grid cell 0, no other player there, and the
two-cell edge buffer.  (The function is total by construction.)  For an
agent id of 0 the claim fails, see the counterexample. -/
theorem is_valid_move_iff_spec (st : BotState) (d : Direction)
    (h : st.my_player.id ≠ 0) :
    is_valid_move st d = true ↔ validSpec st d := by
  unfold validSpec
  simp only [is_valid_move]
  split_ifs with h1 h2 h3 h4 h5
  · constructor
    · intro hx
      exact absurd hx (by simp)
    · rintro ⟨ha, -, -, -⟩
      rw [h1] at ha
      exact absurd ha (by simp)
  · constructor
    · intro hx
      exact absurd hx (by simp)
    · rintro ⟨-, hb, -, -⟩
      exact absurd hb h2
  · constructor
    · intro hx
      exact absurd hx (by simp)
    · rintro ⟨-, -, hc, -⟩
      have h6 := (otherPlayerAt_false_iff st _).mpr hc
      rw [h3] at h6
      exact absurd h6 (by simp)
  · have hc0 : st.state.getGridCell
        (st.my_player.position + getDirectionVector d) = 0 := not_not.mp h2
    exact absurd (hc0 ▸ h4).symm h
  · constructor
    · intro hx
      exact absurd hx (by simp)
    · rintro ⟨-, -, -, hd⟩
      exfalso
      obtain ⟨d1, d2, d3, d4⟩ := hd
      rcases h5 with h5 | h5 | h5 | h5 <;> omega
  · refine iff_of_true rfl ⟨by simpa using h1, not_not.mp h2,
      (otherPlayerAt_false_iff st _).mp (by simpa using h3), ?_⟩
    push_neg at h5
    exact ⟨h5.1, h5.2.1, h5.2.2.1, h5.2.2.2⟩

theorem is_valid_move_iff_spec_witness :
    demoBot.my_player.id ≠ 0 ∧
    (is_valid_move demoBot Direction.north = true ↔
      validSpec demoBot Direction.north) :=
  ⟨by decide, is_valid_move_iff_spec demoBot Direction.north (by decide)⟩

theorem is_valid_move_spec_counterexample :
    ¬ (is_valid_move demoBotIdZero Direction.north = true ↔
        validSpec demoBotIdZero Direction.north) := by decide

/-- C3: when steps_on_side has reached side_length at the start of the
patrol stage, the heading is rotated clockwise and steps_on_side is reset,
sides_completed is incremented, and exactly when it reaches 4 the square
grows and sides_completed resets; in decideMove this transition runs
before the move attempt. -/
theorem patrol_transition_spec (st : BotState)
    (h : st.squareSize ≤ st.stepsOnCurrentSide) :
    (patrolStep st).currentDirection = rotateClockwise st.currentDirection ∧
    (patrolStep st).stepsOnCurrentSide = 0 ∧
    (st.sidesCompleted + 1 = 4 →
        (patrolStep st).sidesCompleted = 0 ∧
        (patrolStep st).squareSize = st.squareSize + 1) ∧
    (st.sidesCompleted + 1 ≠ 4 →
        (patrolStep st).sidesCompleted = st.sidesCompleted + 1 ∧
        (patrolStep st).squareSize = st.squareSize) ∧
    (∀ st2 : BotState, nearBorderB st2 = false →
        decideMove st2 = moveAttempt (patrolStep st2)) := by
  refine ⟨?_, ?_, ?_, ?_, fun st2 h2 => decideMove_of_not_border st2 h2⟩ <;>
    unfold patrolStep <;> rw [if_pos h]
  · split <;> rfl
  · split <;> rfl
  · intro h4
    rw [if_pos h4]
    exact ⟨rfl, rfl⟩
  · intro h4
    rw [if_neg h4]
    exact ⟨rfl, rfl⟩

theorem patrol_transition_spec_witness :
    demoBotRotate.squareSize ≤ demoBotRotate.stepsOnCurrentSide ∧
    (patrolStep demoBotRotate).currentDirection =
      rotateClockwise demoBotRotate.currentDirection ∧
    (patrolStep demoBotRotate).stepsOnCurrentSide = 0 ∧
    (patrolStep demoBotRotate).sidesCompleted =
      demoBotRotate.sidesCompleted + 1 ∧
    decideMove demoBot = moveAttempt (patrolStep demoBot) :=
  ⟨by decide, (patrol_transition_spec demoBotRotate (by decide)).1,
    (patrol_transition_spec demoBotRotate (by decide)).2.1,
    ((patrol_transition_spec demoBotRotate (by decide)).2.2.2.1 (by decide)).1,
    (patrol_transition_spec demoBotRotate (by decide)).2.2.2.2 demoBot (by decide)⟩

/-- C4: after any sequence of remembers with pairwise-distinct positions
the trail queue holds exactly the last min(k, 200) remembered positions in
insertion order (eviction is FIFO), the trail set has exactly the members
of the queue, and the size never exceeds MAX_TRAIL_LENGTH = 200. -/
theorem trail_bound_fifo (botName : String) (seed : Nat) (ps : List Pos)
    (hnd : ps.Nodup) :
    (trailFold (initBot botName seed) ps).trailQueue =
      ps.drop (ps.length - MAX_TRAIL_LENGTH) ∧
    (∀ x : Pos, x ∈ (trailFold (initBot botName seed) ps).trail ↔
      x ∈ (trailFold (initBot botName seed) ps).trailQueue) ∧
    (trailFold (initBot botName seed) ps).trailQueue.length =
      min ps.length MAX_TRAIL_LENGTH := by
  obtain ⟨h1, h2, h3⟩ := trailFold_inv botName seed ps hnd
  refine ⟨h1, h2, ?_⟩
  rw [h1, List.length_drop]
  have hM : MAX_TRAIL_LENGTH = 200 := rfl
  omega

theorem trail_bound_fifo_witness :
    ([⟨1, 1⟩, ⟨2, 2⟩, ⟨3, 3⟩] : List Pos).Nodup ∧
    (trailFold (initBot "bot" 0) [⟨1, 1⟩, ⟨2, 2⟩, ⟨3, 3⟩]).trailQueue =
      ([⟨1, 1⟩, ⟨2, 2⟩, ⟨3, 3⟩] : List Pos).drop
        (([⟨1, 1⟩, ⟨2, 2⟩, ⟨3, 3⟩] : List Pos).length - MAX_TRAIL_LENGTH) :=
  ⟨by decide, (trail_bound_fifo "bot" 0 [⟨1, 1⟩, ⟨2, 2⟩, ⟨3, 3⟩] (by decide)).1⟩

/-- C5: from the initial policy state (heading north, side_length 1,
steps 0, sides 0), after any number of decision ticks 0 ≤ sides_completed
≤ 3 and side_length ≥ 1 hold, and side_length never decreases across any
run segment. -/
theorem policy_state_invariant (botName : String) (seed : Nat)
    (snaps : List GameState) :
    (0 ≤ ((runBot snaps (initBot botName seed)).2.1).sidesCompleted ∧
      ((runBot snaps (initBot botName seed)).2.1).sidesCompleted ≤ 3 ∧
      1 ≤ ((runBot snaps (initBot botName seed)).2.1).squareSize) ∧
    ∀ st : BotState, st.squareSize ≤ ((runBot snaps st).2.1).squareSize := by
  constructor
  · have h0 : PolicyInv (initBot botName seed) :=
      ⟨le_refl 0, by show (0 : Int) ≤ 3; norm_num, le_refl 1⟩
    exact (runBot_policy snaps (initBot botName seed)).1 h0
  · exact fun st => (runBot_policy snaps st).2

/-- C6: on a tick that reaches the fallback (no edge escape, patrol
heading rejected), the returned state keeps exactly the policy state left
by this tick's automaton transition: the rotation is not rolled back and
the fallback neither advances steps_on_side nor changes the heading. -/
theorem fallback_frame (st : BotState) (d : Direction) (st2 : BotState)
    (hnb : nearBorderB st = false ∨ edgeChoice st = none)
    (hpat : dirOk (patrolStep st) (patrolStep st).currentDirection = false)
    (h : decideMove st = some (d, st2)) :
    st2.currentDirection = (patrolStep st).currentDirection ∧
    st2.stepsOnCurrentSide = (patrolStep st).stepsOnCurrentSide ∧
    st2.sidesCompleted = (patrolStep st).sidesCompleted ∧
    st2.squareSize = (patrolStep st).squareSize := by
  rw [decideMove_eq_moveAttempt st hnb] at h
  simp only [moveAttempt] at h
  rw [if_neg (by simp [hpat])] at h
  obtain ⟨p, rfl⟩ := fallbackScan_shape _ _ _ _ h
  have hf := updateTrail_frame (patrolStep st) p
  exact ⟨hf.1, hf.2.1, hf.2.2.1, hf.2.2.2.1⟩

theorem fallback_frame_witness :
    nearBorderB demoBotBlocked = false ∧
    dirOk (patrolStep demoBotBlocked)
      (patrolStep demoBotBlocked).currentDirection = false ∧
    decideMove demoBotBlocked = some (Direction.south, demoBotBlockedAfter) ∧
    demoBotBlockedAfter.currentDirection =
      (patrolStep demoBotBlocked).currentDirection ∧
    demoBotBlockedAfter.stepsOnCurrentSide =
      (patrolStep demoBotBlocked).stepsOnCurrentSide :=
  ⟨by decide, by decide, by decide,
    (fallback_frame demoBotBlocked Direction.south demoBotBlockedAfter
      (Or.inl (by decide)) (by decide) (by decide)).1,
    (fallback_frame demoBotBlocked Direction.south demoBotBlockedAfter
      (Or.inl (by decide)) (by decide) (by decide)).2.1⟩

/-- C7: when decideMove returns through the edge-escape branch, the whole
member state (policy counters, heading and trail memory) is returned
unchanged; the conclusion holds for every trail content, so the escape
direction's target may well sit in trail memory. -/
theorem edge_escape_frame (st : BotState) (d : Direction)
    (h : edgeChoice st = some d) :
    nearBorderB st = true ∧ decideMove st = some (d, st) := by
  have hb : nearBorderB st = true := by
    by_contra hb2
    have h4 := nearBorderB_false st (by simpa using hb2)
    have h5 : edgeCandidates st = [] := by
      unfold edgeCandidates
      rw [if_neg (fun hc => h4 (Or.inr (Or.inl hc))),
        if_neg (fun hc => h4 (Or.inl hc)),
        if_neg (fun hc => h4 (Or.inr (Or.inr (Or.inl hc)))),
        if_neg (fun hc => h4 (Or.inr (Or.inr (Or.inr hc))))]
      rfl
    unfold edgeChoice at h
    rw [h5] at h
    simp at h
  refine ⟨hb, ?_⟩
  rw [decideMove_of_border st hb, h]

theorem edge_escape_frame_witness :
    edgeChoice demoBotEdge = some Direction.east ∧
    is_self_collision demoBotEdge ⟨2, 10⟩ = true ∧
    decideMove demoBotEdge = some (Direction.east, demoBotEdge) :=
  ⟨by decide, by decide,
    (edge_escape_frame demoBotEdge Direction.east (by decide)).2⟩

/-- C8: two runs over the same snapshot sequence from member states that
differ only in the random generator emit the same move sequence and the
same termination flag: the seeded generator is never consulted on the
decision path. -/
theorem run_deterministic (snaps : List GameState) (st : BotState)
    (r1 r2 : Nat) :
    (runBot snaps (setRng st r1)).1 = (runBot snaps (setRng st r2)).1 ∧
    (runBot snaps (setRng st r1)).2.2 = (runBot snaps (setRng st r2)).2.2 := by
  rw [runBot_setRng, runBot_setRng]
  exact ⟨rfl, rfl⟩

/-- C9: the process exit code is 0 exactly when the bot name argument is
present, the connection comes up, and the run loop ends by normal
connection loss; it is 1 on a missing argument, on connection failure,
and on no-valid-move termination. -/
theorem exit_code_spec (args : List String) (connectOk : Bool) (seed : Nat)
    (snaps : List GameState) :
    (programExit args connectOk seed snaps = 0 ↔
      (args.length = 2 ∧ connectOk = true ∧
        (runBot snaps (initBot (args.drop 1).headI seed)).2.2 = false)) ∧
    (args.length ≠ 2 → programExit args connectOk seed snaps = 1) ∧
    (connectOk = false → programExit args connectOk seed snaps = 1) ∧
    ((runBot snaps (initBot (args.drop 1).headI seed)).2.2 = true →
      programExit args connectOk seed snaps = 1) := by
  unfold programExit
  refine ⟨?_, ?_, ?_, ?_⟩
  · split_ifs with h1 h2 h3
    · constructor
      · intro hx
        exact absurd hx (by simp)
      · rintro ⟨ha, -, -⟩
        exact absurd ha h1
    · constructor
      · intro hx
        exact absurd hx (by simp)
      · rintro ⟨-, hb, -⟩
        rw [h2] at hb
        exact absurd hb (by simp)
    · constructor
      · intro hx
        exact absurd hx (by simp)
      · rintro ⟨-, -, he⟩
        rw [h3] at he
        exact absurd he (by simp)
    · have e1 : args.length = 2 := not_not.mp h1
      have e2 : connectOk = true := by
        cases hx : connectOk with
        | false => exact absurd hx h2
        | true => rfl
      have e3 : (runBot snaps (initBot (args.drop 1).headI seed)).2.2 = false := by
        cases hx : (runBot snaps (initBot (args.drop 1).headI seed)).2.2 with
        | false => rfl
        | true => exact absurd hx h3
      exact iff_of_true rfl ⟨e1, e2, e3⟩
  · intro h
    rw [if_pos h]
  · intro h
    split_ifs with h1 <;> rfl
  · intro h
    split_ifs with h1 h2 <;> rfl

theorem exit_code_spec_witness :
    programExit [] true 0 [] = 1 ∧
    programExit ["prog", "bot"] false 0 [] = 1 ∧
    programExit ["prog", "bot"] true 0 [] = 0 :=
  ⟨(exit_code_spec [] true 0 []).2.1 (by decide),
    (exit_code_spec ["prog", "bot"] false 0 []).2.2.1 rfl,
    (exit_code_spec ["prog", "bot"] true 0 []).1.mpr ⟨rfl, rfl, rfl⟩⟩

/-- C10: when a snapshot contains no player whose name equals the bot
name, receiveGameState stores the snapshot and leaves every other member,
in particular my_player, unchanged, so the next decision runs on the
stale own record. -/
theorem receive_missing_name (snap : GameState) (st : BotState)
    (h : ∀ p ∈ snap.players, p.name ≠ st.name) :
    receiveGameState snap st = { st with state := snap } := by
  unfold receiveGameState
  have hf : snap.players.find?
      (fun player => if player.name = st.name then true else false) = none := by
    rw [List.find?_eq_none]
    intro p hp
    rw [if_neg (h p hp)]
    simp
  rw [hf]

theorem receive_missing_name_witness :
    (∀ p ∈ demoSnapMissing.players, p.name ≠ demoBot.name) ∧
    receiveGameState demoSnapMissing demoBot =
      { demoBot with state := demoSnapMissing } :=
  ⟨by decide, receive_missing_name demoSnapMissing demoBot (by decide)⟩

end Cycles
